import Mathlib

/-!
Verification of the SPS30 particulate-matter sensor driver (`matter_sensor.py`)
against its natural-language specification.

Bytes are modelled as `Nat`; byte strings as `List Nat`.  The UART transport is
modelled as a list of scripted responses, one per `uart.read(n)` call: each
response is a function of the requested length returning either `none`
(the MicroPython timeout result `None`) or `some chunk` (the bytes delivered).
-/

set_option autoImplicit false

/-- One pass of Python `bytes.replace(old, new)` for a two-byte pattern
`[a, b]` replaced by the single byte `[c]`: all non-overlapping occurrences
are replaced in one left-to-right scan, and replaced text is not rescanned
within the same pass. -/
def replace21 (a b c : Nat) : List Nat → List Nat
  | [] => []
  | [x] => [x]
  | x :: y :: rest =>
    if x = a ∧ y = b then c :: replace21 a b c rest
    else x :: replace21 a b c (y :: rest)

/-- Python's `pattern in raw` test for a two-byte pattern `[a, b]`. -/
def hasPair (a b : Nat) : List Nat → Bool
  | x :: y :: rest => (x == a && y == b) || hasPair a b (y :: rest)
  | _ => false

/-- One guarded replacement statement of `reverse_byte_stuffing`:
`if pattern in raw: raw = raw.replace(pattern, single)`. -/
def stuffStep (a b c : Nat) (raw : List Nat) : List Nat :=
  if hasPair a b raw then replace21 a b c raw else raw

/-- `SPS30.reverse_byte_stuffing` (matter_sensor.py lines 39-51): four guarded
global replacements applied in sequence, `7D 5E -> 7E`, then `7D 5D -> 7D`,
then `7D 31 -> 11`, then `7D 33 -> 13`. -/
def SPS30.reverse_byte_stuffing (raw : List Nat) : List Nat :=
  stuffStep 0x7D 0x33 0x13
    (stuffStep 0x7D 0x31 0x11
      (stuffStep 0x7D 0x5D 0x7D
        (stuffStep 0x7D 0x5E 0x7E raw)))

/-- Modelled from the spec: the forward byte-stuffing step used by outbound
frame construction (`buildFrame`, section 4.1).  The source repository ships
its outbound frames as pre-stuffed literals, so the forward direction only
exists in the spec: `0x7E -> 0x7D 0x5E`, `0x7D -> 0x7D 0x5D`,
`0x11 -> 0x7D 0x31`, `0x13 -> 0x7D 0x33`, every other byte unchanged. -/
def forwardStuff : List Nat → List Nat
  | [] => []
  | b :: rest =>
    (if b = 0x7E then [0x7D, 0x5E]
     else if b = 0x7D then [0x7D, 0x5D]
     else if b = 0x11 then [0x7D, 0x31]
     else if b = 0x13 then [0x7D, 0x33]
     else [b]) ++ forwardStuff rest

/-- One scripted transport response: given the length requested by
`uart.read(length)`, either `none` (timeout, Python `None`) or the delivered
chunk. -/
abbrev UartResp := Int → Option (List Nat)

/-- The body of `SPS30.read` (matter_sensor.py lines 60-73):
`while length > 0:` read a chunk, return `None` on timeout, otherwise destuff
the chunk, append it to `data`, and subtract the destuffed chunk length from
`length`.  The scripted responses are consumed in order; `none` (the outer
layer) means the script ran out while the loop still wanted bytes, so the
outcome is not determined by the supplied responses. -/
def SPS30.read_loop : List UartResp → Int → List Nat → Option (Option (List Nat))
  | script, length, data =>
    if 0 < length then
      match script with
      | [] => none
      | resp :: rest =>
        match resp length with
        | none => some none
        | some raw =>
          SPS30.read_loop rest (length - (SPS30.reverse_byte_stuffing raw).length)
            (data ++ SPS30.reverse_byte_stuffing raw)
    else some (some data)

/-- `SPS30.read` (matter_sensor.py lines 54-73): the loop started on
`data = bytearray()`. -/
def SPS30.read (script : List UartResp) (length : Int) : Option (Option (List Nat)) :=
  SPS30.read_loop script length []

/-- Outbound frame of `SPS30.start` (line 23). -/
def SPS30.startFrame : List Nat := [0x7E, 0x00, 0x00, 0x02, 0x01, 0x03, 0xF9, 0x7E]

/-- Outbound frame of `SPS30.stop` (line 29). -/
def SPS30.stopFrame : List Nat := [0x7E, 0x00, 0x01, 0x00, 0xFE, 0x7E]

/-- Outbound frame of `SPS30.read_values` (line 91). -/
def SPS30.readValuesFrame : List Nat := [0x7E, 0x00, 0x03, 0x00, 0xFC, 0x7E]

/-- Outbound frame of `SPS30.read_product_type` (line 120). -/
def SPS30.productTypeFrame : List Nat := [0x7E, 0x00, 0xD0, 0x01, 0x00, 0x2E, 0x7E]

/-- Outbound frame of `SPS30.read_serial_number` (line 141). -/
def SPS30.serialNumberFrame : List Nat := [0x7E, 0x00, 0xD0, 0x01, 0x03, 0x2B, 0x7E]

/-- Outbound frame of `SPS30.read_firmware_version` (line 162). -/
def SPS30.firmwareFrame : List Nat := [0x7E, 0x00, 0xD1, 0x00, 0x2E, 0x7E]

/-- One transport interaction of a driver method, at the granularity of the
`self.uart` / `self.flush_input` / `self.read` calls appearing in the source. -/
inductive UartAction where
  /-- a call to `self.flush_input()` (lines 34-37): drain pending input -/
  | flushInput
  /-- `self.uart.write(bytes(frame))` -/
  | write (frame : List Nat)
  /-- `self.uart.flush()`: wait for the transmit buffer to drain -/
  | txFlush
  /-- `self.read(n)`: the accumulating destuffing read loop -/
  | loopRead (n : Int)
  /-- a single bounded `self.uart.read(n)` -/
  | uartRead (n : Int)
deriving DecidableEq

/-- Transport interactions of `SPS30.start` (lines 22-25), in order. -/
def SPS30.startActions : List UartAction :=
  [.write SPS30.startFrame, .txFlush]

/-- Transport interactions of `SPS30.stop` (lines 28-31), in order. -/
def SPS30.stopActions : List UartAction :=
  [.write SPS30.stopFrame, .txFlush]

/-- Transport interactions of `SPS30.read_values` (lines 76-110), in order. -/
def SPS30.readValuesActions : List UartAction :=
  [.flushInput, .write SPS30.readValuesFrame, .loopRead 47]

/-- Transport interactions of `SPS30.read_product_type` (lines 113-132). -/
def SPS30.readProductTypeActions : List UartAction :=
  [.flushInput, .write SPS30.productTypeFrame, .uartRead 24]

/-- Transport interactions of `SPS30.read_serial_number` (lines 135-153). -/
def SPS30.readSerialNumberActions : List UartAction :=
  [.flushInput, .write SPS30.serialNumberFrame, .uartRead 24]

/-- Transport interactions of `SPS30.read_firmware_version` (lines 156-179). -/
def SPS30.readFirmwareVersionActions : List UartAction :=
  [.flushInput, .write SPS30.firmwareFrame, .uartRead 14]

/-- All transport interactions performed by the six public driver
operations. -/
def SPS30.allActions : List UartAction :=
  SPS30.startActions ++ SPS30.stopActions ++ SPS30.readValuesActions ++
    SPS30.readProductTypeActions ++ SPS30.readSerialNumberActions ++
    SPS30.readFirmwareVersionActions

/-- `true` when the first `write` of the trace, if any, is preceded by a
`flushInput` action. -/
def flushBeforeFirstWrite : List UartAction → Bool
  | [] => true
  | .flushInput :: _ => true
  | .write _ :: _ => false
  | _ :: rest => flushBeforeFirstWrite rest

/-- The SHDLC checksum of the frame body: bitwise NOT of the low byte of the
byte sum. -/
def shdlcChecksum (body : List Nat) : Nat := 0xFF - body.sum % 256

/-- Checks a complete frame `0x7E body checksum 0x7E`: the byte immediately
before the closing `0x7E` must equal the checksum of the bytes after the
start marker and before the checksum byte. -/
def frameChecksumOK (f : List Nat) : Bool :=
  f.dropLast.getLast? == some (shdlcChecksum ((f.drop 1).dropLast.dropLast))

/-- `struct.unpack` of `n` big-endian 32-bit fields (bit patterns as `Nat`):
succeeds exactly when the input has `4 * n` bytes. -/
def parseWordsBE : Nat → List Nat → Option (List Nat)
  | 0, [] => some []
  | 0, _ :: _ => none
  | n + 1, b0 :: b1 :: b2 :: b3 :: rest =>
    (parseWordsBE n rest).map (fun ws => (((b0 * 256 + b1) * 256 + b2) * 256 + b3) :: ws)
  | _ + 1, [] => none
  | _ + 1, [_] => none
  | _ + 1, [_, _] => none
  | _ + 1, [_, _, _] => none

/-- Big-endian value of a byte string. -/
def be32 (bs : List Nat) : Nat := bs.foldl (fun acc b => acc * 256 + b) 0

/-- The ten big-endian 32-bit fields of a 40-byte measurement payload,
described positionally: field `i` is bytes `4*i .. 4*i+3`. -/
def wordsOfPayload (pl : List Nat) : List Nat :=
  (List.range 10).map (fun i => be32 ((pl.drop (4 * i)).take 4))

/-- The decode step of `SPS30.read_values` (lines 106-110):
`try: struct.unpack(">ffffffffff", raw_data) except: (0.0,)*10`, with IEEE-754
floats represented by their 32-bit big-endian bit patterns (the all-zero word
is the bit pattern of `0.0`). -/
def SPS30.decode_values (raw_data : List Nat) : List Nat :=
  match parseWordsBE 10 raw_data with
  | some ws => ws
  | none => List.replicate 10 0

/-- `SPS30.read_values` (lines 76-110) as a function of the scripted
transport: read 47 bytes through the accumulating loop, propagate timeout,
otherwise discard the 5-byte header and 2-byte tail (`raw[5:-2]`) and decode. -/
def SPS30.read_values (script : List UartResp) : Option (Option (List Nat)) :=
  match SPS30.read script 47 with
  | none => none
  | some none => some none
  | some (some raw) =>
    some (some (SPS30.decode_values ((raw.drop 5).dropLast.dropLast)))

/-- Claim C1: the round-trip law `reverse_byte_stuffing (forwardStuff p) = p`
fails on the concrete payload `[0x7D, 0x31]`.  Its stuffed wire form is
`[0x7D, 0x5D, 0x31]`; the second replacement pass un-escapes `7D 5D` to `7D`,
and the third pass then merges that `7D` with the following literal `31` into
a spurious `11`, so the driver destuffs the frame to `[0x11]` instead of the
original two payload bytes. -/
theorem c1_round_trip_fails_on_7D31 :
    forwardStuff [0x7D, 0x31] = [0x7D, 0x5D, 0x31] ∧
    SPS30.reverse_byte_stuffing [0x7D, 0x5D, 0x31] = [0x11] ∧
    ([0x11] : List Nat) ≠ [0x7D, 0x31] := by
  refine ⟨by decide, by decide, by decide⟩

/-! ### Basic lemmas about the destuffing primitives -/

theorem replace21_of_no_pair (a b c : Nat) :
    ∀ l : List Nat, hasPair a b l = false → replace21 a b c l = l
  | [], _ => rfl
  | [_], _ => rfl
  | x :: y :: rest, h => by
    simp only [hasPair, Bool.or_eq_false_iff, Bool.and_eq_false_iff, beq_eq_false_iff_ne,
      ne_eq] at h
    rw [replace21, if_neg (fun hc => by rcases h.1 with h1 | h1 <;> exact h1 (by simp [hc.1, hc.2]))]
    rw [replace21_of_no_pair a b c (y :: rest) h.2]

theorem stuffStep_eq (a b c : Nat) (l : List Nat) :
    stuffStep a b c l = replace21 a b c l := by
  unfold stuffStep
  split
  · rfl
  · next h => exact (replace21_of_no_pair a b c l (by revert h; cases hasPair a b l <;> simp)).symm

theorem replace21_length_le (a b c : Nat) :
    ∀ l : List Nat, (replace21 a b c l).length ≤ l.length
  | [] => Nat.le_refl _
  | [_] => Nat.le_refl _
  | x :: y :: rest => by
    rw [replace21]
    split
    · have := replace21_length_le a b c rest
      simp only [List.length_cons]
      omega
    · have := replace21_length_le a b c (y :: rest)
      simp only [List.length_cons] at *
      omega

theorem replace21_ne_nil (a b c : Nat) :
    ∀ l : List Nat, l ≠ [] → replace21 a b c l ≠ []
  | [], h => absurd rfl h
  | [x], _ => by simp [replace21]
  | x :: y :: rest, _ => by
    rw [replace21]
    split <;> simp

theorem reverse_byte_stuffing_length_le (raw : List Nat) :
    (SPS30.reverse_byte_stuffing raw).length ≤ raw.length := by
  unfold SPS30.reverse_byte_stuffing
  simp only [stuffStep_eq]
  exact Nat.le_trans (replace21_length_le _ _ _ _)
    (Nat.le_trans (replace21_length_le _ _ _ _)
      (Nat.le_trans (replace21_length_le _ _ _ _) (replace21_length_le _ _ _ _)))

theorem reverse_byte_stuffing_ne_nil (raw : List Nat) (h : raw ≠ []) :
    SPS30.reverse_byte_stuffing raw ≠ [] := by
  unfold SPS30.reverse_byte_stuffing
  simp only [stuffStep_eq]
  exact replace21_ne_nil _ _ _ _ (replace21_ne_nil _ _ _ _
    (replace21_ne_nil _ _ _ _ (replace21_ne_nil _ _ _ _ h)))

/-! ### Unfolding lemmas for the read loop -/

theorem read_loop_nil (length : Int) (data : List Nat) :
    SPS30.read_loop [] length data = if 0 < length then none else some (some data) := by
  rw [SPS30.read_loop]

theorem read_loop_cons (resp : UartResp) (rest : List UartResp) (length : Int)
    (data : List Nat) :
    SPS30.read_loop (resp :: rest) length data =
      if 0 < length then
        match resp length with
        | none => some none
        | some raw =>
          SPS30.read_loop rest (length - (SPS30.reverse_byte_stuffing raw).length)
            (data ++ SPS30.reverse_byte_stuffing raw)
      else some (some data) := by
  rw [SPS30.read_loop]

/-- Claim C4: during the accumulating read loop, at any loop state (any
remaining length still positive and any bytes already accumulated in `data`),
an underlying transport read that yields the timeout signal makes the whole
read return the timeout signal `None`, discarding the accumulated data. -/
theorem c4_timeout_returns_none (resp : UartResp) (rest : List UartResp)
    (length : Int) (data : List Nat) (hpos : 0 < length) (ht : resp length = none) :
    SPS30.read_loop (resp :: rest) length data = some none := by
  rw [read_loop_cons, if_pos hpos, ht]

theorem c4_timeout_returns_none_witness :
    (0 : Int) < 5 ∧ ((fun _ => none : UartResp) 5 = none) ∧
      SPS30.read_loop [fun _ => none] 5 [9, 9] = some none :=
  ⟨by decide, rfl, c4_timeout_returns_none (fun _ => none) [] 5 [9, 9] (by decide) rfl⟩

/-- Claim C5: every frame written by any of the six driver operations carries,
immediately before the closing `0x7E`, the bitwise-NOT of the low byte of the
sum of all frame bytes after the start marker and before the checksum. -/
theorem c5_outbound_frames_checksum (f : List Nat)
    (h : UartAction.write f ∈ SPS30.allActions) : frameChecksumOK f = true := by
  simp only [SPS30.allActions, SPS30.startActions, SPS30.stopActions,
    SPS30.readValuesActions, SPS30.readProductTypeActions, SPS30.readSerialNumberActions,
    SPS30.readFirmwareVersionActions, List.append_assoc, List.cons_append, List.nil_append,
    List.mem_cons, List.mem_singleton, List.mem_nil_iff, UartAction.write.injEq,
    reduceCtorEq, or_false, false_or] at h
  rcases h with h | h | h | h | h | h <;> subst h <;> decide

theorem c5_outbound_frames_checksum_witness :
    UartAction.write SPS30.startFrame ∈ SPS30.allActions ∧
      frameChecksumOK SPS30.startFrame = true :=
  ⟨by decide, c5_outbound_frames_checksum SPS30.startFrame (by decide)⟩

/-- Claim C6 counterexample: in the `read_product_type` frame, the
command-specific argument byte following the length byte (index 4) is `0x00`,
not `0x01` as the claim states.  (`0x01` at index 3 is the length byte.) -/
theorem c6_product_type_subcommand_not_01 :
    SPS30.productTypeFrame[4]? = some 0x00 ∧ SPS30.productTypeFrame[4]? ≠ some 0x01 := by
  refine ⟨by decide, by decide⟩

/-- Claim C6 (amended): both device-information frames carry command code
`0xD0` (index 2) and length byte `0x01` (index 3); the subcommand byte
following the length byte (index 4) is `0x00` for `read_product_type` and
`0x03` for `read_serial_number`. -/
theorem c6_device_info_subcommands :
    SPS30.productTypeFrame[2]? = some 0xD0 ∧ SPS30.productTypeFrame[3]? = some 0x01 ∧
    SPS30.productTypeFrame[4]? = some 0x00 ∧
    SPS30.serialNumberFrame[2]? = some 0xD0 ∧ SPS30.serialNumberFrame[3]? = some 0x01 ∧
    SPS30.serialNumberFrame[4]? = some 0x03 := by
  refine ⟨by decide, by decide, by decide, by decide, by decide, by decide⟩

/-- Claim C8 counterexample: `start` (and likewise `stop`) writes its command
frame without any preceding `flush_input`. -/
theorem c8_start_writes_without_flush :
    flushBeforeFirstWrite SPS30.startActions = false ∧
    flushBeforeFirstWrite SPS30.stopActions = false := by
  refine ⟨by decide, by decide⟩

/-- Claim C8 (amended): of the six public driver operations, the four
response-reading operations (`read_values`, `read_product_type`,
`read_serial_number`, `read_firmware_version`) perform the destructive input
flush before writing their command frame, while `start` and `stop` write
without a preceding flush. -/
theorem c8_flush_ordering :
    flushBeforeFirstWrite SPS30.readValuesActions = true ∧
    flushBeforeFirstWrite SPS30.readProductTypeActions = true ∧
    flushBeforeFirstWrite SPS30.readSerialNumberActions = true ∧
    flushBeforeFirstWrite SPS30.readFirmwareVersionActions = true ∧
    flushBeforeFirstWrite SPS30.startActions = false ∧
    flushBeforeFirstWrite SPS30.stopActions = false := by
  refine ⟨by decide, by decide, by decide, by decide, by decide, by decide⟩

/-- The transport contract on scripted responses: a non-timeout reply to
`uart.read(n)` delivers at most `n` bytes. -/
def permittedScript (script : List UartResp) : Prop :=
  ∀ resp ∈ script, ∀ (n : Int) (r : List Nat), resp n = some r → (r.length : Int) ≤ n

/-- Loop invariant of the accumulating read: under the transport contract, a
successful run delivers the already-accumulated bytes plus exactly the
remaining requested length. -/
theorem read_loop_success_length (script : List UartResp) :
    ∀ (length : Int) (data out : List Nat), permittedScript script → 0 ≤ length →
      SPS30.read_loop script length data = some (some out) →
      (out.length : Int) = data.length + length := by
  induction script with
  | nil =>
    intro length data out _ h0 h
    rw [read_loop_nil] at h
    split at h
    · exact absurd h (by simp)
    · next hneg =>
      obtain rfl : data = out := by simpa using h
      omega
  | cons resp rest ih =>
    intro length data out hperm h0 h
    rw [read_loop_cons] at h
    split at h
    · next hpos =>
      cases hr : resp length with
      | none => rw [hr] at h; exact absurd h (by simp)
      | some raw =>
        rw [hr] at h
        have hr1 : (raw.length : Int) ≤ length := hperm resp (by simp) length raw hr
        have hd : (SPS30.reverse_byte_stuffing raw).length ≤ raw.length :=
          reverse_byte_stuffing_length_le raw
        have hrec := ih (length - ((SPS30.reverse_byte_stuffing raw).length : Int))
          (data ++ SPS30.reverse_byte_stuffing raw) out
          (fun r hrm => hperm r (by simp [hrm])) (by omega) h
        rw [List.length_append] at hrec
        push_cast at hrec ⊢
        omega
    · next hneg =>
      obtain rfl : data = out := by simpa using h
      omega

/-- Claim C9: for every nonnegative requested length, under the transport
contract (each `uart.read(n)` returns at most `n` bytes), a successful
`SPS30.read` returns a buffer of exactly the requested number of destuffed
bytes. -/
theorem c9_read_success_length (script : List UartResp) (length : Int) (out : List Nat)
    (hperm : permittedScript script) (h0 : 0 ≤ length)
    (h : SPS30.read script length = some (some out)) : (out.length : Int) = length := by
  have := read_loop_success_length script length [] out hperm h0 h
  simpa using this

/-- A contract-respecting script delivering three bytes on any request of at
least three. -/
def c9Script : List UartResp := [fun n => if 3 ≤ n then some [1, 2, 3] else none]

theorem c9_read_success_length_witness :
    SPS30.read c9Script 3 = some (some [1, 2, 3]) ∧ (([1, 2, 3] : List Nat).length : Int) = 3 := by
  refine ⟨by decide, c9_read_success_length c9Script 3 [1, 2, 3] ?_ (by decide) (by decide)⟩
  intro resp hresp n r hr
  simp only [c9Script, List.mem_singleton] at hresp
  subst hresp
  simp only [] at hr
  by_cases hn : (3 : Int) ≤ n
  · rw [if_pos hn] at hr
    cases hr
    simpa using hn
  · rw [if_neg hn] at hr
    exact Option.noConfusion hr

/-! ### The measurement decode step -/

theorem drop_four_cons (b0 b1 b2 b3 : Nat) (l : List Nat) (k : Nat) :
    (b0 :: b1 :: b2 :: b3 :: l).drop (k + 4) = l.drop k := rfl

theorem parseWordsBE_none_of_length_ne :
    ∀ (n : Nat) (pl : List Nat), pl.length ≠ 4 * n → parseWordsBE n pl = none
  | 0, [], h => absurd rfl h
  | 0, _ :: _, _ => rfl
  | _ + 1, [], _ => rfl
  | _ + 1, [_], _ => rfl
  | _ + 1, [_, _], _ => rfl
  | _ + 1, [_, _, _], _ => rfl
  | n + 1, b0 :: b1 :: b2 :: b3 :: rest, h => by
    have hrest : rest.length ≠ 4 * n := by
      simp only [List.length_cons] at h
      omega
    simp only [parseWordsBE, parseWordsBE_none_of_length_ne n rest hrest, Option.map_none']

set_option maxRecDepth 4000 in
theorem parseWordsBE_some_of_length_eq :
    ∀ (n : Nat) (pl : List Nat), pl.length = 4 * n →
      parseWordsBE n pl =
        some ((List.range n).map (fun i => be32 ((pl.drop (4 * i)).take 4)))
  | 0, [], _ => rfl
  | 0, _ :: _, h => absurd h (by simp)
  | _ + 1, [], h => absurd h (by simp)
  | _ + 1, [_], h => absurd h (by simp; omega)
  | _ + 1, [_, _], h => absurd h (by simp; omega)
  | _ + 1, [_, _, _], h => absurd h (by simp; omega)
  | n + 1, b0 :: b1 :: b2 :: b3 :: rest, h => by
    have hrest : rest.length = 4 * n := by
      simp only [List.length_cons] at h
      omega
    simp only [parseWordsBE, parseWordsBE_some_of_length_eq n rest hrest, Option.map_some']
    have htail : (List.range n).map
          ((fun i => be32 (((b0 :: b1 :: b2 :: b3 :: rest).drop (4 * i)).take 4)) ∘ Nat.succ) =
        (List.range n).map (fun i => be32 ((rest.drop (4 * i)).take 4)) := by
      refine List.map_congr_left (fun i _ => ?_)
      have h4 : 4 * Nat.succ i = 4 * i + 4 := by omega
      simp only [Function.comp_apply, h4, drop_four_cons]
    have hhead : be32 (((b0 :: b1 :: b2 :: b3 :: rest).drop (4 * 0)).take 4) =
        ((b0 * 256 + b1) * 256 + b2) * 256 + b3 := by
      simp [be32]
    rw [List.range_succ_eq_map, List.map_cons, List.map_map, htail, hhead]

/-- Claim C7: the measurement decode fails closed.  A payload whose byte count
differs from 40 makes `struct.unpack` raise, and the handler substitutes the
all-zero ten-tuple (`0.0` has the all-zero 32-bit pattern); a 40-byte payload
always unpacks, yielding the ten fields decoded big-endian, field `i` from
bytes `4*i .. 4*i+3`. -/
theorem c7_decode_fails_closed (pl : List Nat) :
    (pl.length ≠ 40 → SPS30.decode_values pl = List.replicate 10 0) ∧
    (pl.length = 40 → SPS30.decode_values pl = wordsOfPayload pl) := by
  constructor
  · intro h
    unfold SPS30.decode_values
    rw [parseWordsBE_none_of_length_ne 10 pl (by omega)]
  · intro h
    unfold SPS30.decode_values
    rw [parseWordsBE_some_of_length_eq 10 pl (by omega)]
    rfl

theorem c7_decode_fails_closed_witness :
    SPS30.decode_values (List.replicate 39 0) = List.replicate 10 0 ∧
    SPS30.decode_values (List.replicate 40 7) = wordsOfPayload (List.replicate 40 7) :=
  ⟨(c7_decode_fails_closed (List.replicate 39 0)).1 (by decide),
   (c7_decode_fails_closed (List.replicate 40 7)).2 (by decide)⟩

/-- Claim C10: under the transport contract, whenever `read(47)` succeeds the
sliced payload `raw[5:-2]` has exactly 40 bytes, on which `struct.unpack`
always succeeds, so the zero-tuple fallback branch of `read_values` cannot
execute. -/
theorem c10_fallback_unreachable (script : List UartResp) (raw : List Nat)
    (hperm : permittedScript script) (h : SPS30.read script 47 = some (some raw)) :
    ((raw.drop 5).dropLast.dropLast).length = 40 ∧
    parseWordsBE 10 ((raw.drop 5).dropLast.dropLast) ≠ none := by
  have hlen : (raw.length : Int) = ([] : List Nat).length + 47 :=
    read_loop_success_length script 47 [] raw hperm (by decide) h
  have hlen47 : raw.length = 47 := by
    simp only [List.length_nil] at hlen
    omega
  have h40 : ((raw.drop 5).dropLast.dropLast).length = 40 := by
    simp [List.length_dropLast, List.length_drop, hlen47]
  refine ⟨h40, ?_⟩
  rw [parseWordsBE_some_of_length_eq 10 _ (by omega)]
  simp

/-- A contract-respecting script delivering the documented 47-byte
all-data-zero measurement response in one chunk. -/
def c10Script : List UartResp := [fun n => if 47 ≤ n then some (List.replicate 47 0) else none]

theorem c10_fallback_unreachable_witness :
    (((List.replicate 47 (0 : Nat)).drop 5).dropLast.dropLast).length = 40 ∧
    parseWordsBE 10 (((List.replicate 47 (0 : Nat)).drop 5).dropLast.dropLast) ≠ none := by
  refine c10_fallback_unreachable c10Script (List.replicate 47 0) ?_ (by decide)
  intro resp hresp n r hr
  simp only [c10Script, List.mem_singleton] at hresp
  subst hresp
  simp only [] at hr
  by_cases hn : (47 : Int) ≤ n
  · rw [if_pos hn] at hr
    cases hr
    simpa using hn
  · rw [if_neg hn] at hr
    exact Option.noConfusion hr

/-! ### Reading a response delivered in chunks -/

/-- A transport script that successively returns the given chunks, whatever
length is requested. -/
def chunkScript (chunks : List (List Nat)) : List UartResp :=
  chunks.map (fun c => fun _ => some c)

/-- Destuffing applied to each chunk independently, as the read loop does. -/
def destuffEach (chunks : List (List Nat)) : List Nat :=
  (chunks.map SPS30.reverse_byte_stuffing).flatten

theorem read_loop_cons_chunk (c : List Nat) (rest : List UartResp) (length : Int)
    (data : List Nat) (hpos : 0 < length) :
    SPS30.read_loop ((fun _ => some c) :: rest) length data =
      SPS30.read_loop rest (length - ((SPS30.reverse_byte_stuffing c).length : Int))
        (data ++ SPS30.reverse_byte_stuffing c) := by
  rw [read_loop_cons, if_pos hpos]

/-- Fed exactly the chunks of a response, the loop accumulates the per-chunk
destuffed bytes when the target equals their total length. -/
theorem read_loop_chunkScript (chunks : List (List Nat)) :
    ∀ data : List Nat,
      SPS30.read_loop (chunkScript chunks) ((destuffEach chunks).length : Int) data =
        some (some (data ++ destuffEach chunks)) := by
  induction chunks with
  | nil =>
    intro data
    have h0 : destuffEach [] = [] := rfl
    rw [h0]
    rw [show chunkScript [] = [] from rfl, read_loop_nil]
    simp
  | cons c cs ih =>
    intro data
    have hdec : destuffEach (c :: cs) = SPS30.reverse_byte_stuffing c ++ destuffEach cs := by
      simp [destuffEach]
    rw [hdec]
    rcases Decidable.em
        (0 < (((SPS30.reverse_byte_stuffing c ++ destuffEach cs).length : Nat) : Int)) with
      hpos | hneg
    · rw [show chunkScript (c :: cs) = (fun _ => some c) :: chunkScript cs from rfl,
        read_loop_cons_chunk c (chunkScript cs) _ data hpos]
      have harith : (((SPS30.reverse_byte_stuffing c ++ destuffEach cs).length : Nat) : Int) -
          ((SPS30.reverse_byte_stuffing c).length : Int) = ((destuffEach cs).length : Int) := by
        push_cast [List.length_append]
        ring
      rw [harith, ih (data ++ SPS30.reverse_byte_stuffing c), List.append_assoc]
    · have hlen : (SPS30.reverse_byte_stuffing c ++ destuffEach cs).length = 0 := by omega
      rw [List.length_append] at hlen
      have hc : SPS30.reverse_byte_stuffing c = [] := by
        apply List.eq_nil_of_length_eq_zero
        omega
      have hcs : destuffEach cs = [] := by
        apply List.eq_nil_of_length_eq_zero
        omega
      rw [hc, hcs]
      simp [SPS30.read_loop]

/-- Claim C2 (amended): when no two-byte escape sequence spans a chunk
boundary — formally, destuffing the concatenated stream equals destuffing
each chunk independently — and the target length equals the total destuffed
length, `read` accumulates exactly the destuffing of the concatenation of all
chunks. -/
theorem c2_read_of_chunked_stream (chunks : List (List Nat))
    (hsplit : SPS30.reverse_byte_stuffing chunks.flatten = destuffEach chunks) :
    SPS30.read (chunkScript chunks)
        (((SPS30.reverse_byte_stuffing chunks.flatten).length : Nat) : Int) =
      some (some (SPS30.reverse_byte_stuffing chunks.flatten)) := by
  rw [hsplit]
  unfold SPS30.read
  rw [read_loop_chunkScript chunks []]
  simp

theorem c2_read_of_chunked_stream_witness :
    SPS30.read (chunkScript [[0x7D, 0x5E], [0x41]])
        (((SPS30.reverse_byte_stuffing ([[0x7D, 0x5E], [0x41]] : List (List Nat)).flatten).length :
          Nat) : Int) =
      some (some (SPS30.reverse_byte_stuffing ([[0x7D, 0x5E], [0x41]] : List (List Nat)).flatten)) :=
  c2_read_of_chunked_stream [[0x7D, 0x5E], [0x41]] (by decide)

/-- Claim C2 counterexample: the escape sequence `7D 5E` split across the two
chunks `[7D]` and `[5E]` is not reassembled: with target length 1, `read`
returns `[0x7D]` after the first chunk, while destuffing the concatenated
stream `[0x7D, 0x5E]` yields `[0x7E]`. -/
theorem c2_split_escape_counterexample :
    SPS30.read (chunkScript [[0x7D], [0x5E]]) 1 = some (some [0x7D]) ∧
    SPS30.reverse_byte_stuffing [0x7D, 0x5E] = [0x7E] ∧
    ([0x7D] : List Nat) ≠ [0x7E] := by
  refine ⟨by decide, by decide, by decide⟩

/-! ### Termination of the accumulating read -/

/-- The first `n` responses of an infinite response stream. -/
def streamTake (n : Nat) (stream : Nat → UartResp) : List UartResp :=
  (List.range n).map stream

/-- A transport stream that answers every positive request with zero bytes
(and otherwise times out).  It respects the contract: it never delivers more
bytes than requested. -/
def c3Stream : Nat → UartResp :=
  fun _ => fun n => if 0 < n then some [] else none

theorem read_loop_empty_chunks :
    ∀ script : List UartResp, (∀ resp ∈ script, resp 1 = some []) →
      ∀ data : List Nat, SPS30.read_loop script 1 data = none
  | [], _, data => by
    rw [read_loop_nil, if_pos (by decide : (0 : Int) < 1)]
  | resp :: rest, h, data => by
    rw [read_loop_cons, if_pos (by decide : (0 : Int) < 1), h resp (by simp)]
    exact read_loop_empty_chunks rest (fun r hr => h r (by simp [hr])) (data ++ [])

/-- Claim C3 counterexample: the transport contract allows a read to deliver
zero bytes before the deadline; against a stream of zero-byte responses the
loop never makes progress, so no finite number of scripted responses lets
`read 1` finish — the loop does not terminate. -/
theorem c3_zero_byte_reads_diverge :
    (∀ (k : Nat) (n : Int) (r : List Nat), c3Stream k n = some r → (r.length : Int) ≤ n) ∧
    ∀ k : Nat, SPS30.read (streamTake k c3Stream) 1 = none := by
  constructor
  · intro k n r h
    unfold c3Stream at h
    by_cases hn : (0 : Int) < n
    · rw [if_pos hn] at h
      cases h
      simp
      omega
    · rw [if_neg hn] at h
      exact Option.noConfusion h
  · intro k
    apply read_loop_empty_chunks
    intro resp hresp
    simp only [streamTake, List.mem_map] at hresp
    obtain ⟨i, _, rfl⟩ := hresp
    rfl

theorem read_loop_ne_none_of_nonempty :
    ∀ script : List UartResp,
      (∀ resp ∈ script, ∀ (n : Int) (r : List Nat), resp n = some r → r ≠ []) →
      ∀ (length : Int) (data : List Nat), length ≤ (script.length : Int) →
        SPS30.read_loop script length data ≠ none := by
  intro script
  induction script with
  | nil =>
    intro _ length data hle
    rw [read_loop_nil]
    split
    · next hpos =>
      simp only [List.length_nil, Nat.cast_zero] at hle
      omega
    · simp
  | cons resp rest ih =>
    intro hne length data hle
    rw [read_loop_cons]
    split
    · next hpos =>
      cases hr : resp length with
      | none => simp
      | some raw =>
        have hraw : raw ≠ [] := hne resp (by simp) length raw hr
        have hd : SPS30.reverse_byte_stuffing raw ≠ [] := reverse_byte_stuffing_ne_nil raw hraw
        have hd1 : 1 ≤ (SPS30.reverse_byte_stuffing raw).length := by
          cases hdd : SPS30.reverse_byte_stuffing raw with
          | nil => exact absurd hdd hd
          | cons a l => simp
        apply ih (fun r hrm n rr hrr => hne r (by simp [hrm]) n rr hrr)
        simp only [List.length_cons] at hle
        push_cast at hle ⊢
        omega
    · simp
  
/-- Claim C3 (amended): `read(length)` terminates for every length whenever
every response of the transport stream is either a timeout or a nonempty
chunk: some finite number of scripted responses already determines the
outcome. -/
theorem c3_read_terminates_on_nonempty (stream : Nat → UartResp) (length : Int)
    (hne : ∀ (k : Nat) (n : Int) (r : List Nat), stream k n = some r → r ≠ []) :
    ∃ k : Nat, SPS30.read (streamTake k stream) length ≠ none := by
  refine ⟨length.toNat, ?_⟩
  apply read_loop_ne_none_of_nonempty
  · intro resp hresp n r hr
    simp only [streamTake, List.mem_map] at hresp
    obtain ⟨i, _, rfl⟩ := hresp
    exact hne i n r hr
  · simp only [streamTake, List.length_map, List.length_range]
    exact Int.self_le_toNat length

/-- A stream that answers every read with the single byte `0x41`: every
response is a nonempty chunk, so the loop must accumulate across several
reads before it can finish. -/
def c3ChunkStream : Nat → UartResp := fun _ => fun _ => some [0x41]

theorem c3_read_terminates_on_nonempty_witness :
    SPS30.read (streamTake 3 c3ChunkStream) 3 = some (some [0x41, 0x41, 0x41]) ∧
    (∃ k : Nat, SPS30.read (streamTake k c3ChunkStream) 3 ≠ none) :=
  ⟨by decide,
   c3_read_terminates_on_nonempty c3ChunkStream 3
     (fun _ _ r h => by
       injection h with h2
       rw [← h2]
       decide)⟩
